import Mathlib

/-!
Shallow embedding of `src/app.py` (class `ArtworkPDFExtractor`).

The program is a thin pipeline over external libraries: PyMuPDF parses the
PDF (modelled as an abstract `PDFDocument` of pages), spaCy annotates text
(modelled as a function from text to an `NLPDoc` of entity spans and
sentence spans), PIL decodes raster bytes (modelled as a `decode`
parameter).  The first-party logic — text concatenation, image-loop order,
and the keyword/entity classifier `identify_artwork_info` — is translated
directly from the source.

Strings are Lean `String`; Python `str.lower()` is modelled characterwise
by `charLower`, the Unicode simple lowercase mapping restricted to the
letter repertoire of the French text this program processes (ASCII A–Z,
the Latin-1 uppercase letters À–Þ, Œ, Ÿ — Python lower() agrees with it
there); Python `needle in hay` is modelled by `strContains`; Python
`set` is `Finset String`; a Python dict literal with fixed keys is an
inductive whose serialised key list is given by `ClassifyResult.keys`.
-/

namespace Art

/-- An entity span produced by the annotation model: its tag (`ent.label_`)
and its surface text (`ent.text`). -/
structure Entity where
  label : String
  text : String
deriving DecidableEq

/-- The output of running the annotation model on a text: the named-entity
spans (`doc.ents`) and the sentence spans (`doc.sents`, each taken by its
surface text `sent.text`). -/
structure NLPDoc where
  ents : List Entity
  sents : List String
deriving DecidableEq

/-- The loaded language model (`self.nlp` when not `None`): a function from
input text to its annotated document. -/
def NLPModel : Type := String → NLPDoc

/-- `needle.data` occurs contiguously inside `hay` (Python `needle in hay`
on lists of characters). -/
def isSubList (needle : List Char) : List Char → Bool
  | [] => needle.isEmpty
  | c :: rest => needle.isPrefixOf (c :: rest) || isSubList needle rest

/-- Python substring test `needle in hay`. -/
def strContains (hay needle : String) : Bool :=
  isSubList needle.data hay.data

/-- One character of Python `s.lower()`: the Unicode simple lowercase
mapping on the repertoire of French letters — A–Z, the Latin-1 uppercase
letters À–Þ (U+00C0 to U+00DE, excluding the multiplication sign U+00D7,
all mapped by adding 0x20 as Unicode specifies), Œ and Ÿ.  Python lower()
agrees with this mapping on that repertoire; characters outside it are
left unchanged. -/
def charLower (c : Char) : Char :=
  let n := c.toNat
  if 65 ≤ n ∧ n ≤ 90 then Char.ofNat (n + 32)
  else if 0xC0 ≤ n ∧ n ≤ 0xDE ∧ n ≠ 0xD7 then Char.ofNat (n + 32)
  else if n = 0x152 then Char.ofNat 0x153
  else if n = 0x178 then Char.ofNat 0xFF
  else c

/-- Python `s.lower()`, characterwise via `charLower`. -/
def strLower (s : String) : String :=
  ⟨s.data.map charLower⟩

/-- The dates keyword list of `identify_artwork_info`. -/
def motsDates : List String := ["date", "année", "créé en"]

/-- The techniques keyword list of `identify_artwork_info`. -/
def motsTechniques : List String := ["technique", "huile", "aquarelle", "acrylique"]

/-- Python `any(mot in sent.text.lower() for mot in mots)`. -/
def anyMot (mots : List String) (sent : String) : Bool :=
  mots.any (fun mot => strContains (strLower sent) mot)

/-- The five-category dictionary `artwork_info` built by
`identify_artwork_info`, one `set()` per key. -/
structure ArtworkInfo where
  artistes : Finset String
  titres : Finset String
  dates : Finset String
  techniques : Finset String
  dimensions : Finset String
deriving DecidableEq

/-- The value returned by `identify_artwork_info`: either the degraded
one-key error dict or the five-category dict. -/
inductive ClassifyResult where
  | erreur (msg : String)
  | info (a : ArtworkInfo)
deriving DecidableEq

/-- The keys of the returned Python dict, in literal order. -/
def ClassifyResult.keys : ClassifyResult → List String
  | .erreur _ => ["erreur"]
  | .info _ => ["artistes", "titres", "dates", "techniques", "dimensions"]

/-- One iteration of the entity loop: `if ent.label_ == 'PER': ...
elif ent.label_ == 'WORK_OF_ART': ...`. -/
def entStep (a : ArtworkInfo) (ent : Entity) : ArtworkInfo :=
  if ent.label = "PER" then { a with artistes := insert ent.text a.artistes }
  else if ent.label = "WORK_OF_ART" then { a with titres := insert ent.text a.titres }
  else a

/-- One iteration of the sentence loop: two independent `if` statements. -/
def sentStep (a : ArtworkInfo) (sent : String) : ArtworkInfo :=
  let a1 := if anyMot motsDates sent then { a with dates := insert sent a.dates } else a
  if anyMot motsTechniques sent then { a1 with techniques := insert sent a1.techniques } else a1

/-- `ArtworkPDFExtractor.identify_artwork_info`, with `self.nlp` passed
explicitly (`none` models `self.nlp is None`). -/
def identify_artwork_info (nlp : Option NLPModel) (text : String) : ClassifyResult :=
  match nlp with
  | none => .erreur "Modèle NLP non disponible"
  | some model =>
    let doc := model text
    let a0 : ArtworkInfo := ⟨∅, ∅, ∅, ∅, ∅⟩
    let a1 := doc.ents.foldl entStep a0
    let a2 := doc.sents.foldl sentStep a1
    .info a2

/-- One page of the parsed document: its plain-text rendering
(`page.get_text()`) and the xref of each entry of its full image listing
(`img[0] for img in page.get_images(full=True)`; only component 0 of each
tuple is consumed by the code). -/
structure PDFPage where
  text : String
  images : List Nat

/-- The parsed document (`fitz.open`): its ordered pages, and the encoded
byte stream `self.document.extract_image(xref)['image']` of each raster
resource, indexed by xref. -/
structure PDFDocument where
  pages : List PDFPage
  imageBytes : Nat → List Nat

/-- A decoded in-memory bitmap (PIL image). -/
structure PILImage where
  pixels : List Nat
deriving DecidableEq

/-- The extractor state: the parsed document and the optionally loaded
model, both set in `__init__` and never reassigned. -/
structure ArtworkPDFExtractor where
  document : PDFDocument
  nlp : Option NLPModel

/-- `extract_text`: `full_text = ""` then `full_text += page.get_text()`
over the pages in order. -/
def extract_text (e : ArtworkPDFExtractor) : String :=
  e.document.pages.foldl (fun full_text page => full_text ++ page.text) ""

/-- `extract_images`: the nested loop appending, page by page and listing
entry by listing entry, the decoded bitmap of each resource.  `decode`
models `Image.open(io.BytesIO(image_bytes))`. -/
def extract_images (decode : List Nat → PILImage) (e : ArtworkPDFExtractor) : List PILImage :=
  e.document.pages.foldl
    (fun images page =>
      page.images.foldl
        (fun images xref => images ++ [decode (e.document.imageBytes xref)])
        images)
    []

/-- Calling `identify_artwork_info` as a method: its body contains no
assignment to `self`, so the state it passes on is the state it received. -/
def identify_run (e : ArtworkPDFExtractor) (text : String) :
    ClassifyResult × ArtworkPDFExtractor :=
  (identify_artwork_info e.nlp text, e)

/-- Well-formedness of a model output for a given text: every sentence span
and every entity span is a nonempty contiguous range of the text. -/
def NLPDoc.wf (text : String) (doc : NLPDoc) : Prop :=
  (∀ s ∈ doc.sents, s ≠ "" ∧ strContains text s = true) ∧
  (∀ e ∈ doc.ents, e.text ≠ "" ∧ strContains text e.text = true)

instance (text : String) (doc : NLPDoc) : Decidable (doc.wf text) := by
  unfold NLPDoc.wf; infer_instance

/-! ### Loop characterization lemmas -/

theorem entStep_dates (a : ArtworkInfo) (e : Entity) : (entStep a e).dates = a.dates := by
  unfold entStep
  by_cases h1 : e.label = "PER"
  · simp [h1]
  · by_cases h2 : e.label = "WORK_OF_ART" <;> simp [h1, h2]

theorem entStep_techniques (a : ArtworkInfo) (e : Entity) :
    (entStep a e).techniques = a.techniques := by
  unfold entStep
  by_cases h1 : e.label = "PER"
  · simp [h1]
  · by_cases h2 : e.label = "WORK_OF_ART" <;> simp [h1, h2]

theorem entStep_dimensions (a : ArtworkInfo) (e : Entity) :
    (entStep a e).dimensions = a.dimensions := by
  unfold entStep
  by_cases h1 : e.label = "PER"
  · simp [h1]
  · by_cases h2 : e.label = "WORK_OF_ART" <;> simp [h1, h2]

theorem entStep_artistes_mem (a : ArtworkInfo) (e : Entity) (x : String) :
    x ∈ (entStep a e).artistes ↔ x ∈ a.artistes ∨ (e.label = "PER" ∧ e.text = x) := by
  unfold entStep
  by_cases h1 : e.label = "PER"
  · simp [h1, Finset.mem_insert]
    tauto
  · by_cases h2 : e.label = "WORK_OF_ART" <;> simp [h1, h2]

theorem entStep_titres_mem (a : ArtworkInfo) (e : Entity) (x : String) :
    x ∈ (entStep a e).titres ↔ x ∈ a.titres ∨ (e.label = "WORK_OF_ART" ∧ e.text = x) := by
  unfold entStep
  by_cases h1 : e.label = "PER"
  · have : e.label ≠ "WORK_OF_ART" := by rw [h1]; decide
    simp [h1, this]
  · by_cases h2 : e.label = "WORK_OF_ART"
    · simp [h1, h2, Finset.mem_insert]
      tauto
    · simp [h1, h2]

theorem sentStep_artistes (a : ArtworkInfo) (s : String) :
    (sentStep a s).artistes = a.artistes := by
  unfold sentStep
  by_cases h1 : anyMot motsDates s <;> by_cases h2 : anyMot motsTechniques s <;> simp [h1, h2]

theorem sentStep_titres (a : ArtworkInfo) (s : String) :
    (sentStep a s).titres = a.titres := by
  unfold sentStep
  by_cases h1 : anyMot motsDates s <;> by_cases h2 : anyMot motsTechniques s <;> simp [h1, h2]

theorem sentStep_dimensions (a : ArtworkInfo) (s : String) :
    (sentStep a s).dimensions = a.dimensions := by
  unfold sentStep
  by_cases h1 : anyMot motsDates s <;> by_cases h2 : anyMot motsTechniques s <;> simp [h1, h2]

theorem sentStep_dates_mem (a : ArtworkInfo) (s : String) (x : String) :
    x ∈ (sentStep a s).dates ↔ x ∈ a.dates ∨ (anyMot motsDates s = true ∧ s = x) := by
  unfold sentStep
  by_cases h1 : anyMot motsDates s <;> by_cases h2 : anyMot motsTechniques s <;>
    simp [h1, h2, Finset.mem_insert] <;> tauto

theorem sentStep_techniques_mem (a : ArtworkInfo) (s : String) (x : String) :
    x ∈ (sentStep a s).techniques ↔
      x ∈ a.techniques ∨ (anyMot motsTechniques s = true ∧ s = x) := by
  unfold sentStep
  by_cases h1 : anyMot motsDates s <;> by_cases h2 : anyMot motsTechniques s <;>
    simp [h1, h2, Finset.mem_insert] <;> tauto

theorem foldl_entStep_dates (ents : List Entity) (a : ArtworkInfo) :
    (ents.foldl entStep a).dates = a.dates := by
  induction ents generalizing a with
  | nil => rfl
  | cons e es ih => rw [List.foldl_cons, ih, entStep_dates]

theorem foldl_entStep_techniques (ents : List Entity) (a : ArtworkInfo) :
    (ents.foldl entStep a).techniques = a.techniques := by
  induction ents generalizing a with
  | nil => rfl
  | cons e es ih => rw [List.foldl_cons, ih, entStep_techniques]

theorem foldl_entStep_dimensions (ents : List Entity) (a : ArtworkInfo) :
    (ents.foldl entStep a).dimensions = a.dimensions := by
  induction ents generalizing a with
  | nil => rfl
  | cons e es ih => rw [List.foldl_cons, ih, entStep_dimensions]

theorem foldl_entStep_artistes_mem (ents : List Entity) (a : ArtworkInfo) (x : String) :
    x ∈ (ents.foldl entStep a).artistes ↔
      x ∈ a.artistes ∨ ∃ e ∈ ents, e.label = "PER" ∧ e.text = x := by
  induction ents generalizing a with
  | nil => simp
  | cons e es ih =>
    rw [List.foldl_cons, ih, entStep_artistes_mem]
    simp only [List.mem_cons]
    constructor
    · rintro ((h | h) | ⟨e', he', h⟩)
      · exact Or.inl h
      · exact Or.inr ⟨e, Or.inl rfl, h⟩
      · exact Or.inr ⟨e', Or.inr he', h⟩
    · rintro (h | ⟨e', (rfl | he'), h⟩)
      · exact Or.inl (Or.inl h)
      · exact Or.inl (Or.inr h)
      · exact Or.inr ⟨e', he', h⟩

theorem foldl_entStep_titres_mem (ents : List Entity) (a : ArtworkInfo) (x : String) :
    x ∈ (ents.foldl entStep a).titres ↔
      x ∈ a.titres ∨ ∃ e ∈ ents, e.label = "WORK_OF_ART" ∧ e.text = x := by
  induction ents generalizing a with
  | nil => simp
  | cons e es ih =>
    rw [List.foldl_cons, ih, entStep_titres_mem]
    simp only [List.mem_cons]
    constructor
    · rintro ((h | h) | ⟨e', he', h⟩)
      · exact Or.inl h
      · exact Or.inr ⟨e, Or.inl rfl, h⟩
      · exact Or.inr ⟨e', Or.inr he', h⟩
    · rintro (h | ⟨e', (rfl | he'), h⟩)
      · exact Or.inl (Or.inl h)
      · exact Or.inl (Or.inr h)
      · exact Or.inr ⟨e', he', h⟩

theorem foldl_sentStep_artistes (sents : List String) (a : ArtworkInfo) :
    (sents.foldl sentStep a).artistes = a.artistes := by
  induction sents generalizing a with
  | nil => rfl
  | cons s ss ih => rw [List.foldl_cons, ih, sentStep_artistes]

theorem foldl_sentStep_titres (sents : List String) (a : ArtworkInfo) :
    (sents.foldl sentStep a).titres = a.titres := by
  induction sents generalizing a with
  | nil => rfl
  | cons s ss ih => rw [List.foldl_cons, ih, sentStep_titres]

theorem foldl_sentStep_dimensions (sents : List String) (a : ArtworkInfo) :
    (sents.foldl sentStep a).dimensions = a.dimensions := by
  induction sents generalizing a with
  | nil => rfl
  | cons s ss ih => rw [List.foldl_cons, ih, sentStep_dimensions]

theorem foldl_sentStep_dates_mem (sents : List String) (a : ArtworkInfo) (x : String) :
    x ∈ (sents.foldl sentStep a).dates ↔
      x ∈ a.dates ∨ (x ∈ sents ∧ anyMot motsDates x = true) := by
  induction sents generalizing a with
  | nil => simp
  | cons s ss ih =>
    rw [List.foldl_cons, ih, sentStep_dates_mem]
    simp only [List.mem_cons]
    constructor
    · rintro ((h | ⟨hm, rfl⟩) | ⟨hx, hm⟩)
      · exact Or.inl h
      · exact Or.inr ⟨Or.inl rfl, hm⟩
      · exact Or.inr ⟨Or.inr hx, hm⟩
    · rintro (h | ⟨(rfl | hx), hm⟩)
      · exact Or.inl (Or.inl h)
      · exact Or.inl (Or.inr ⟨hm, rfl⟩)
      · exact Or.inr ⟨hx, hm⟩

theorem foldl_sentStep_techniques_mem (sents : List String) (a : ArtworkInfo) (x : String) :
    x ∈ (sents.foldl sentStep a).techniques ↔
      x ∈ a.techniques ∨ (x ∈ sents ∧ anyMot motsTechniques x = true) := by
  induction sents generalizing a with
  | nil => simp
  | cons s ss ih =>
    rw [List.foldl_cons, ih, sentStep_techniques_mem]
    simp only [List.mem_cons]
    constructor
    · rintro ((h | ⟨hm, rfl⟩) | ⟨hx, hm⟩)
      · exact Or.inl h
      · exact Or.inr ⟨Or.inl rfl, hm⟩
      · exact Or.inr ⟨Or.inr hx, hm⟩
    · rintro (h | ⟨(rfl | hx), hm⟩)
      · exact Or.inl (Or.inl h)
      · exact Or.inl (Or.inr ⟨hm, rfl⟩)
      · exact Or.inr ⟨hx, hm⟩

/-- Unfolding of the classifier on an available model. -/
theorem identify_some_eq (model : NLPModel) (text : String) :
    identify_artwork_info (some model) text =
      .info ((model text).sents.foldl sentStep
        ((model text).ents.foldl entStep ⟨∅, ∅, ∅, ∅, ∅⟩)) := rfl

/-- Full characterization of the five sets produced on an available model. -/
theorem identify_info_spec (model : NLPModel) (text : String) (a : ArtworkInfo)
    (h : identify_artwork_info (some model) text = .info a) :
    (∀ x, x ∈ a.artistes ↔ ∃ e ∈ (model text).ents, e.label = "PER" ∧ e.text = x) ∧
    (∀ x, x ∈ a.titres ↔ ∃ e ∈ (model text).ents, e.label = "WORK_OF_ART" ∧ e.text = x) ∧
    (∀ x, x ∈ a.dates ↔ x ∈ (model text).sents ∧ anyMot motsDates x = true) ∧
    (∀ x, x ∈ a.techniques ↔ x ∈ (model text).sents ∧ anyMot motsTechniques x = true) ∧
    a.dimensions = ∅ := by
  rw [identify_some_eq] at h
  injection h with h
  subst h
  refine ⟨fun x => ?_, fun x => ?_, fun x => ?_, fun x => ?_, ?_⟩
  · rw [foldl_sentStep_artistes, foldl_entStep_artistes_mem]
    simp
  · rw [foldl_sentStep_titres, foldl_entStep_titres_mem]
    simp
  · rw [foldl_sentStep_dates_mem, foldl_entStep_dates]
    simp
  · rw [foldl_sentStep_techniques_mem, foldl_entStep_techniques]
    simp
  · rw [foldl_sentStep_dimensions, foldl_entStep_dimensions]

/-- A string contained in the empty string is empty. -/
theorem eq_empty_of_strContains_empty {s : String} (h : strContains "" s = true) : s = "" := by
  apply String.ext
  have h2 : s.data.isEmpty = true := h
  simpa using List.isEmpty_iff.mp h2

/-- Membership of one keyword in the lowered sentence makes the whole
keyword test succeed. -/
theorem anyMot_of_mem {mots : List String} {mot : String} (hm : mot ∈ mots) {s : String}
    (h : strContains (strLower s) mot = true) : anyMot mots s = true := by
  unfold anyMot
  rw [List.any_eq_true]
  exact ⟨mot, hm, h⟩

theorem foldl_append_singleton {α β : Type} (f : α → β) (l : List α) (acc : List β) :
    l.foldl (fun acc x => acc ++ [f x]) acc = acc ++ l.map f := by
  induction l generalizing acc with
  | nil => simp
  | cons x xs ih => simp [ih]

theorem foldl_images_aux (f : Nat → PILImage) (pages : List PDFPage) (acc : List PILImage) :
    pages.foldl (fun images page =>
      page.images.foldl (fun images xref => images ++ [f xref]) images) acc =
    acc ++ (pages.map (fun p => p.images.map f)).flatten := by
  induction pages generalizing acc with
  | nil => simp
  | cons p ps ih =>
    rw [List.foldl_cons, foldl_append_singleton, ih, List.map_cons, List.flatten_cons,
      List.append_assoc]

theorem extract_images_eq_flatten (decode : List Nat → PILImage) (e : ArtworkPDFExtractor) :
    extract_images decode e =
      (e.document.pages.map
        (fun p => p.images.map (fun xref => decode (e.document.imageBytes xref)))).flatten := by
  unfold extract_images
  simpa using foldl_images_aux (fun xref => decode (e.document.imageBytes xref))
    e.document.pages []

/-! ### Claim theorems -/

/-- C4: with no model loaded, the classifier returns the one-key degraded
error dict (a value, not an exception) for every input text, and neither
text extraction nor image extraction depends on the loaded-model field. -/
theorem C4_model_unavailable_degrades (text : String) :
    identify_artwork_info none text = .erreur "Modèle NLP non disponible" ∧
    (identify_artwork_info none text).keys = ["erreur"] ∧
    (∀ (doc : PDFDocument) (nlp1 nlp2 : Option NLPModel) (decode : List Nat → PILImage),
      extract_text ⟨doc, nlp1⟩ = extract_text ⟨doc, nlp2⟩ ∧
      extract_images decode ⟨doc, nlp1⟩ = extract_images decode ⟨doc, nlp2⟩) :=
  ⟨rfl, rfl, fun _ _ _ _ => ⟨rfl, rfl⟩⟩

/-- C6: the extracted text is the ordered concatenation of the pages'
plain-text renderings, with nothing inserted between them. -/
theorem C6_text_is_page_concat (e : ArtworkPDFExtractor) :
    extract_text e = String.join (e.document.pages.map PDFPage.text) := by
  unfold extract_text String.join
  rw [List.foldl_map]

/-- C7: the extracted images are exactly the page-order, listing-order
flattening of each page's raster resources, each decoded from its encoded
byte stream; in particular their count is the total resource count. -/
theorem C7_images_page_order_count (decode : List Nat → PILImage) (e : ArtworkPDFExtractor) :
    extract_images decode e =
      (e.document.pages.map
        (fun p => p.images.map (fun xref => decode (e.document.imageBytes xref)))).flatten ∧
    (extract_images decode e).length =
      (e.document.pages.map (fun p => p.images.length)).sum := by
  refine ⟨extract_images_eq_flatten decode e, ?_⟩
  rw [extract_images_eq_flatten decode e, List.length_flatten, List.map_map]
  congr 1
  apply List.map_congr_left
  intro p _
  simp

/-- C10: classification passes the extractor state through unchanged: the
method body assigns nothing to the instance, so after any number of
classification calls the document and model fields — hence the results of
text and image extraction — are identical. -/
theorem C10_classify_preserves_state (e : ArtworkPDFExtractor) (texts : List String)
    (decode : List Nat → PILImage) :
    (∀ text, (identify_run e text).2 = e) ∧
    texts.foldl (fun st text => (identify_run st text).2) e = e ∧
    extract_text (texts.foldl (fun st text => (identify_run st text).2) e) = extract_text e ∧
    extract_images decode (texts.foldl (fun st text => (identify_run st text).2) e) =
      extract_images decode e := by
  have hfold : texts.foldl (fun st text => (identify_run st text).2) e = e := by
    induction texts with
    | nil => rfl
    | cons t ts ih => rw [List.foldl_cons]; exact ih
  exact ⟨fun _ => rfl, hfold, by rw [hfold], by rw [hfold]⟩

/-! ### Concrete annotation models for counterexamples and witnesses -/

/-- A model segmenting its input into the single sentence of `tC1`. -/
def modelC1 : NLPModel := fun _ => ⟨[], ["This is oil."]⟩

/-- A model with two all-caps accented sentences: one matching the dates
list only after Unicode lowering, one containing HUILE. -/
def modelC1w : NLPModel := fun _ => ⟨[], ["CRÉÉ EN 1990.", "HUILE SUR TOILE."]⟩

/-- A model producing no spans at all. -/
def modelC2 : NLPModel := fun _ => ⟨[], []⟩

/-- A model tagging an entity with the label string PERSON. -/
def modelC3 : NLPModel := fun _ => ⟨[⟨"PERSON", "Jean Dupont"⟩], ["Jean Dupont peint."]⟩

/-- A model tagging one PER entity and one WORK_OF_ART entity. -/
def modelC3w : NLPModel :=
  fun _ => ⟨[⟨"PER", "Jean Dupont"⟩, ⟨"WORK_OF_ART", "La Joconde"⟩],
    ["Jean Dupont et La Joconde."]⟩

/-- A model whose single all-caps sentence matches both keyword lists
once Unicode-lowered ("créé en" and "huile"). -/
def modelC5 : NLPModel := fun _ => ⟨[], ["CRÉÉ EN 1990, HUILE SUR TOILE."]⟩

/-- A model producing no spans at all. -/
def modelC8 : NLPModel := fun _ => ⟨[], []⟩

/-- A model with a PER entity and a sentence matching both keyword lists. -/
def modelC9 : NLPModel :=
  fun _ => ⟨[⟨"PER", "Monet"⟩], ["Monet, créé en 1990, technique huile."]⟩

/-- C1 counterexample: the keyword lists of the code are French, not the
English ones of the claim.  On the well-formed annotation of the text
"This is oil." — whose single sentence lower-cases to a string containing
"oil" and which has no entities at all — the classifier returns every
category empty: the sentence is not added to techniques. -/
theorem C1_counterexample :
    (modelC1 "This is oil.").wf "This is oil." ∧
    (modelC1 "This is oil.").ents = [] ∧
    "This is oil." ∈ (modelC1 "This is oil.").sents ∧
    strContains (strLower "This is oil.") "oil" = true ∧
    identify_artwork_info (some modelC1) "This is oil." = .info ⟨∅, ∅, ∅, ∅, ∅⟩ := by
  decide

/-- C1 (amended): with the model available the classifier lower-cases each
sentence; a sentence matching a keyword of the dates list (date, année,
créé en) is added in original case to `dates`, and one matching a keyword
of the techniques list (technique, huile, aquarelle, acrylique) to
`techniques`; in particular a sentence whose lower-cased text contains
"huile" lands in `techniques`, and when no entity is labelled PER or
WORK_OF_ART the `artistes` and `titres` sets are empty, as is
`dimensions`. -/
theorem C1_sentence_keywords (model : NLPModel) (text : String) (a : ArtworkInfo)
    (h : identify_artwork_info (some model) text = .info a) :
    (∀ s ∈ (model text).sents, anyMot motsDates s = true → s ∈ a.dates) ∧
    (∀ s ∈ (model text).sents, anyMot motsTechniques s = true → s ∈ a.techniques) ∧
    (∀ s ∈ (model text).sents, strContains (strLower s) "huile" = true → s ∈ a.techniques) ∧
    ((∀ e ∈ (model text).ents, e.label ≠ "PER" ∧ e.label ≠ "WORK_OF_ART") →
      a.artistes = ∅ ∧ a.titres = ∅) ∧
    a.dimensions = ∅ := by
  obtain ⟨hart, htit, hdat, htec, hdim⟩ := identify_info_spec model text a h
  refine ⟨?_, ?_, ?_, ?_, hdim⟩
  · intro s hs hm
    exact (hdat s).mpr ⟨hs, hm⟩
  · intro s hs hm
    exact (htec s).mpr ⟨hs, hm⟩
  · intro s hs hm
    exact (htec s).mpr ⟨hs, anyMot_of_mem (by decide) hm⟩
  · intro hno
    constructor
    · rw [Finset.eq_empty_iff_forall_not_mem]
      intro x hx
      obtain ⟨e, he, hlab, _⟩ := (hart x).mp hx
      exact (hno e he).1 hlab
    · rw [Finset.eq_empty_iff_forall_not_mem]
      intro x hx
      obtain ⟨e, he, hlab, _⟩ := (htit x).mp hx
      exact (hno e he).2 hlab

/-- C1 witness: the amended theorem applied to a concrete model with
all-caps accented sentences — "CRÉÉ EN 1990." matches the dates list only
through the Unicode lowering of É, and "HUILE SUR TOILE." contains
"huile" after lowering. -/
theorem C1_sentence_keywords_witness :
    (identify_artwork_info (some modelC1w) "CRÉÉ EN 1990. HUILE SUR TOILE." =
      .info ⟨∅, ∅, {"CRÉÉ EN 1990."}, {"HUILE SUR TOILE."}, ∅⟩) ∧
    "CRÉÉ EN 1990." ∈
      (⟨∅, ∅, {"CRÉÉ EN 1990."}, {"HUILE SUR TOILE."}, ∅⟩ : ArtworkInfo).dates ∧
    "HUILE SUR TOILE." ∈
      (⟨∅, ∅, {"CRÉÉ EN 1990."}, {"HUILE SUR TOILE."}, ∅⟩ : ArtworkInfo).techniques :=
  ⟨by decide,
    (C1_sentence_keywords modelC1w "CRÉÉ EN 1990. HUILE SUR TOILE."
      ⟨∅, ∅, {"CRÉÉ EN 1990."}, {"HUILE SUR TOILE."}, ∅⟩ (by decide)).1 "CRÉÉ EN 1990."
      (by decide) (by decide),
    (C1_sentence_keywords modelC1w "CRÉÉ EN 1990. HUILE SUR TOILE."
      ⟨∅, ∅, {"CRÉÉ EN 1990."}, {"HUILE SUR TOILE."}, ∅⟩ (by decide)).2.2.1 "HUILE SUR TOILE."
      (by decide) (by decide)⟩

/-- C2 counterexample: the keys of the returned dict are the French
strings of the source, so the English key "artists" of the claim is not
among them. -/
theorem C2_counterexample :
    (identify_artwork_info (some modelC2) "").keys =
      ["artistes", "titres", "dates", "techniques", "dimensions"] ∧
    "artists" ∉ (identify_artwork_info (some modelC2) "").keys := by
  decide

/-- C2 (amended): with the model available the classifier always returns
the five-key dict whose keys are exactly artistes, titres, dates,
techniques, dimensions (in that order), each holding a set of strings;
empty categories are present as empty sets. -/
theorem C2_keys (model : NLPModel) (text : String) :
    (identify_artwork_info (some model) text).keys =
      ["artistes", "titres", "dates", "techniques", "dimensions"] := rfl

/-- C3 counterexample: the code tests the label against PER, not PERSON.
On a well-formed annotation tagging "Jean Dupont" with the literal label
PERSON, every category — `artistes` included — comes back empty. -/
theorem C3_counterexample :
    (modelC3 "Jean Dupont peint.").wf "Jean Dupont peint." ∧
    (⟨"PERSON", "Jean Dupont"⟩ : Entity) ∈ (modelC3 "Jean Dupont peint.").ents ∧
    identify_artwork_info (some modelC3) "Jean Dupont peint." = .info ⟨∅, ∅, ∅, ∅, ∅⟩ := by
  decide

/-- C3 (amended): with the model available, `artistes` is exactly the set
of surface texts of entities labelled PER, `titres` exactly those labelled
WORK_OF_ART, and entities of any other label contribute to no category:
`dates` and `techniques` are determined by the sentence spans alone and
`dimensions` is empty. -/
theorem C3_entity_rules (model : NLPModel) (text : String) (a : ArtworkInfo)
    (h : identify_artwork_info (some model) text = .info a) :
    (∀ x, x ∈ a.artistes ↔ ∃ e ∈ (model text).ents, e.label = "PER" ∧ e.text = x) ∧
    (∀ x, x ∈ a.titres ↔ ∃ e ∈ (model text).ents, e.label = "WORK_OF_ART" ∧ e.text = x) ∧
    (∀ x, x ∈ a.dates ↔ x ∈ (model text).sents ∧ anyMot motsDates x = true) ∧
    (∀ x, x ∈ a.techniques ↔ x ∈ (model text).sents ∧ anyMot motsTechniques x = true) ∧
    a.dimensions = ∅ :=
  identify_info_spec model text a h

/-- C3 witness: the amended theorem applied to a concrete model tagging a
PER entity and a WORK_OF_ART entity. -/
theorem C3_entity_rules_witness :
    (identify_artwork_info (some modelC3w) "Jean Dupont et La Joconde." =
      .info ⟨{"Jean Dupont"}, {"La Joconde"}, ∅, ∅, ∅⟩) ∧
    ("Jean Dupont" ∈ (⟨{"Jean Dupont"}, {"La Joconde"}, ∅, ∅, ∅⟩ : ArtworkInfo).artistes ↔
      ∃ e ∈ (modelC3w "Jean Dupont et La Joconde.").ents,
        e.label = "PER" ∧ e.text = "Jean Dupont") :=
  ⟨by decide,
    (C3_entity_rules modelC3w "Jean Dupont et La Joconde."
      ⟨{"Jean Dupont"}, {"La Joconde"}, ∅, ∅, ∅⟩ (by decide)).1 "Jean Dupont"⟩

/-- C5: the two keyword tests are independent if-statements, so a sentence
matching both the dates list and the techniques list is added to both
categories. -/
theorem C5_both_categories (model : NLPModel) (text : String) (a : ArtworkInfo)
    (h : identify_artwork_info (some model) text = .info a) (s : String)
    (hs : s ∈ (model text).sents) (hd : anyMot motsDates s = true)
    (ht : anyMot motsTechniques s = true) :
    s ∈ a.dates ∧ s ∈ a.techniques := by
  obtain ⟨_, _, hdat, htec, _⟩ := identify_info_spec model text a h
  exact ⟨(hdat s).mpr ⟨hs, hd⟩, (htec s).mpr ⟨hs, ht⟩⟩

/-- C5 witness: the all-caps accented sentence "CRÉÉ EN 1990, HUILE SUR
TOILE." matches the dates list (via "créé en") and the techniques list
(via "huile") after Unicode lowering and lands in both categories. -/
theorem C5_both_categories_witness :
    (identify_artwork_info (some modelC5) "CRÉÉ EN 1990, HUILE SUR TOILE." =
      .info ⟨∅, ∅, {"CRÉÉ EN 1990, HUILE SUR TOILE."},
        {"CRÉÉ EN 1990, HUILE SUR TOILE."}, ∅⟩) ∧
    ("CRÉÉ EN 1990, HUILE SUR TOILE." ∈
        (⟨∅, ∅, {"CRÉÉ EN 1990, HUILE SUR TOILE."},
          {"CRÉÉ EN 1990, HUILE SUR TOILE."}, ∅⟩ : ArtworkInfo).dates ∧
      "CRÉÉ EN 1990, HUILE SUR TOILE." ∈
        (⟨∅, ∅, {"CRÉÉ EN 1990, HUILE SUR TOILE."},
          {"CRÉÉ EN 1990, HUILE SUR TOILE."}, ∅⟩ : ArtworkInfo).techniques) :=
  ⟨by decide,
    C5_both_categories modelC5 "CRÉÉ EN 1990, HUILE SUR TOILE."
      ⟨∅, ∅, {"CRÉÉ EN 1990, HUILE SUR TOILE."},
        {"CRÉÉ EN 1990, HUILE SUR TOILE."}, ∅⟩ (by decide)
      "CRÉÉ EN 1990, HUILE SUR TOILE." (by decide) (by decide) (by decide)⟩

/-- C8: on the empty input, any well-formed annotation (whose spans are
nonempty ranges of the text) has no sentence and no entity spans, so the
classifier returns the five-category dict with every set empty — no
error. -/
theorem C8_empty_input (model : NLPModel) (h : (model "").wf "") :
    identify_artwork_info (some model) "" = .info ⟨∅, ∅, ∅, ∅, ∅⟩ := by
  obtain ⟨hsent, hent⟩ := h
  have hs : (model "").sents = [] := by
    rw [List.eq_nil_iff_forall_not_mem]
    intro s hsmem
    obtain ⟨hne, hc⟩ := hsent s hsmem
    exact hne (eq_empty_of_strContains_empty hc)
  have he : (model "").ents = [] := by
    rw [List.eq_nil_iff_forall_not_mem]
    intro e hemem
    obtain ⟨hne, hc⟩ := hent e hemem
    exact hne (eq_empty_of_strContains_empty hc)
  rw [identify_some_eq, hs, he]
  rfl

/-- C8 witness: the theorem applied to a concrete model producing no
spans on the empty string. -/
theorem C8_empty_input_witness :
    (modelC8 "").wf "" ∧
    identify_artwork_info (some modelC8) "" = .info ⟨∅, ∅, ∅, ∅, ∅⟩ :=
  ⟨by decide, C8_empty_input modelC8 (by decide)⟩

/-- C9: no rule of the entity pass or the sentence pass inserts into
`dimensions`, so with the model available that category is always the
empty set. -/
theorem C9_dimensions_empty (model : NLPModel) (text : String) (a : ArtworkInfo)
    (h : identify_artwork_info (some model) text = .info a) :
    a.dimensions = ∅ :=
  (identify_info_spec model text a h).2.2.2.2

/-- C9 witness: the theorem applied to a concrete run populating every
other category. -/
theorem C9_dimensions_empty_witness :
    (identify_artwork_info (some modelC9) "Monet, créé en 1990, technique huile." =
      .info ⟨{"Monet"}, ∅, {"Monet, créé en 1990, technique huile."},
        {"Monet, créé en 1990, technique huile."}, ∅⟩) ∧
    (⟨{"Monet"}, ∅, {"Monet, créé en 1990, technique huile."},
        {"Monet, créé en 1990, technique huile."}, ∅⟩ : ArtworkInfo).dimensions = ∅ :=
  ⟨by decide,
    C9_dimensions_empty modelC9 "Monet, créé en 1990, technique huile."
      ⟨{"Monet"}, ∅, {"Monet, créé en 1990, technique huile."},
        {"Monet, créé en 1990, technique huile."}, ∅⟩ (by decide)⟩

end Art
